import Mathlib

set_option maxRecDepth 8000

/-!
Formal model of the rcb4 ARMH7Interface device-register protocol engine
(src/rcb4/armh7interface.py).

The Python source is shallowly embedded as executable Lean functions.
Machine bytes are modelled as Nat values (with explicit mod 256 where the
source truncates), device memory as a total function from byte addresses to
bytes, and the Python exception behavior as an Except monad.  Collaborators
that live outside the shown source (the rcb4.asm checksum and servo-byte
helpers, the float32 bit packer of the struct module) are passed in as
function parameters, matching the way the spec treats them as opaque,
externally defined pure functions.  Struct layouts from rcb4.struct_header
are not part of the source tree either; functions are therefore parametric
in a StructSchema record, and concrete sample schemas used by witnesses are
modelled from the spec.
-/

/-- A single-byte checksum collaborator (spec section 3 treats the exact
checksum algorithm as an external deterministic single-byte function). -/
abbrev Chk := List Nat → Nat

/-- Device memory: a total byte-addressed store. -/
abbrev Mem := Nat → Nat

/-- Python exceptions that the embedded code can raise. -/
inductive PyError
  | runtimeError (msg : String)
  | typeError
  | valueError
  | overflowError
  | indexError
  | keyError
  | attributeError
  | structError
  deriving DecidableEq

/-- The c_type tags used by the source: write_cls_alist and set_cstruct_slot
compare against the strings float, uint16 and uint8, while
write_cstruct_slot_v and ctype_to_struct_format compare against the strings
colon-integer, colon-byte, colon-short, colon-float and colon-double.  Each
string tag becomes one constructor. -/
inductive CType
  | integer
  | byte
  | short
  | float
  | double
  | uint16
  | uint8
  deriving DecidableEq

/-- Modelled from the spec: rcb4.ctype_utils.c_type_to_size is not under
src/.  Spec section 3 gives the sizes of the numeric types (int32 4, uint8 1,
uint16 2, float32 4, float64 8); short is the 2-byte C short. -/
def c_type_to_size : CType → Nat
  | .integer => 4
  | .byte => 1
  | .short => 2
  | .float => 4
  | .double => 8
  | .uint16 => 2
  | .uint8 => 1

/-- One entry of a struct schema: cls.__fields_types__[slot_name]. -/
structure FieldType where
  c_type : CType
  offset : Nat
  deriving DecidableEq

/-- A device-side record type: the base address armh7_elf_alist[cls.__name__],
the record size cls.size, the array length c_vector[cls.__name__], and the
field table cls.__fields_types__. -/
structure StructSchema where
  base : Nat
  size : Nat
  vcnt : Nat
  fields : List (String × FieldType)
  deriving DecidableEq

/-- addr.to_bytes(4, byteorder little): the four low-order bytes. -/
def le4 (x : Nat) : List Nat :=
  [x % 256, x / 256 % 256, x / 65536 % 256, x / 16777216 % 256]

/-- x.to_bytes(2, byteorder little): the two low-order bytes. -/
def le2 (x : Nat) : List Nat :=
  [x % 256, x / 256 % 256]

/-- The length consecutive bytes of device memory starting at addr. -/
def readBytes (mem : Mem) (addr len : Nat) : List Nat :=
  (List.range len).map (fun i => mem (addr + i))

/-- Store a byte string into device memory at addr. -/
def mem_store (mem : Mem) (addr : Nat) (data : List Nat) : Mem :=
  fun a => if addr ≤ a ∧ a < addr + data.length then data.getD (a - addr) 0 else mem a

/-- np.frombuffer(b, dtype np.uint16): reinterpret a byte string as
little-endian 16-bit unsigned values. -/
def u16_pairs : List Nat → List Nat
  | b0 :: b1 :: rest => (b0 + 256 * b1) :: u16_pairs rest
  | _ => []

/-- A decoded struct field value.  Integer kinds decode to Int; the float
kinds are exposed as their raw little-endian byte pattern, since IEEE float
semantics are outside this embedding and no claim depends on them. -/
inductive PyVal
  | int (i : Int)
  | raw (bs : List Nat)
  deriving DecidableEq

/-- struct.unpack_from of one element whose bytes start at the head of bs. -/
def decode_field (typ : CType) (bs : List Nat) : PyVal :=
  match typ with
  | .uint8 => .int (bs.getD 0 0)
  | .uint16 => .int (bs.getD 0 0 + 256 * bs.getD 1 0)
  | .byte =>
      let b := bs.getD 0 0
      .int (if b < 128 then (b : Int) else (b : Int) - 256)
  | .short =>
      let x := bs.getD 0 0 + 256 * bs.getD 1 0
      .int (if x < 32768 then (x : Int) else (x : Int) - 65536)
  | .integer =>
      let x := bs.getD 0 0 + 256 * bs.getD 1 0 + 65536 * bs.getD 2 0 + 16777216 * bs.getD 3 0
      .int (if x < 2147483648 then (x : Int) else (x : Int) - 4294967296)
  | .float => .raw (bs.take 4)
  | .double => .raw (bs.take 8)

/-- Modelled from the spec: attribute access on a struct_header record
(cls(buf).slot) decodes the field from the record buffer at its offset per
its numeric type; rcb4.struct_header is not under src/. -/
def cstruct_field (cls : StructSchema) (buf : List Nat) (slot_name : String) :
    Except PyError PyVal :=
  match cls.fields.lookup slot_name with
  | none => .error .attributeError
  | some ft => .ok (decode_field ft.c_type (buf.drop ft.offset))

/-- A Python comparison value > 0: defined on ints, a TypeError on bytes. -/
def pyval_gt_zero : PyVal → Except PyError Bool
  | .int i => .ok (decide (0 < i))
  | .raw _ => .error .typeError

/-- A Python comparison value == 1: False (not an error) on bytes. -/
def pyval_eq_one : PyVal → Bool
  | .int i => i == 1
  | .raw _ => false

/-!  ## Transport layer: serial_read / serial_write

The underlying serial channel is modelled as the list of byte strings that
successive self.serial.read_until() calls deliver.  An exhausted list stands
for a channel that never delivers the missing bytes, on which the source
loops forever; the model returns none there. -/

/-- The second while loop of serial_read: while len(ret) > 0 and
ret[0] != len(ret), append the next read_until chunk. -/
def serial_read_more : List Nat → List (List Nat) → Option (List Nat)
  | acc, [] =>
      if 0 < acc.length ∧ acc.head? ≠ some acc.length then none
      else some ((acc.drop 1).dropLast)
  | acc, c :: rest =>
      if 0 < acc.length ∧ acc.head? ≠ some acc.length then
        serial_read_more (acc ++ c) rest
      else some ((acc.drop 1).dropLast)

/-- The first while loop of serial_read: retry read_until while it returns
zero bytes, then run the accumulation loop; finally ret[1:len(ret)-1]. -/
def serial_read_chunks : List (List Nat) → Option (List Nat)
  | [] => none
  | c :: rest => if c.length = 0 then serial_read_chunks rest else serial_read_more c rest

/-- serial_read of the session: raises RuntimeError when the serial handle
was never opened, otherwise runs the reassembly loops on the channel. -/
def serial_read (serial : Option (List (List Nat))) :
    Except PyError (Option (List Nat)) :=
  match serial with
  | none => .error (.runtimeError "Serial is not opened.")
  | some chunks => .ok (serial_read_chunks chunks)

/-- serial_write of the session: raises RuntimeError when the serial handle
was never opened; otherwise bytes(byte_list) (a ValueError when an entry is
not a byte), one blocking write, then serial_read.  The second component is
the list of frames actually written to the transport. -/
def serial_write (serial : Option (List (List Nat))) (byte_list : List Nat) :
    Except PyError (Option (List Nat)) × List (List Nat) :=
  match serial with
  | none => (.error (.runtimeError "Serial is not opened."), [])
  | some chunks =>
      if byte_list.all (· < 256) then (.ok (serial_read_chunks chunks), [byte_list])
      else (.error .valueError, [])

/-!  ## Chunked memory reader -/

/-- The request frame built by memory_read_aux: an 11-byte MREADV (0xFB)
frame with cnt 1, e_size length and skip_size 0.  The checksum collaborator
is applied to the whole list whose last entry still holds 0, exactly as
rcb4_checksum(byte_list) is called in the source. -/
def mreadv_frame (chk : Chk) (addr length : Nat) : List Nat :=
  let byte_list :=
    [11, 0xFB, addr % 256, addr / 256 % 256, addr / 65536 % 256,
     addr / 16777216 % 256, 1, length, 0, 0, 0]
  byte_list.set 10 (chk byte_list)

/-- memory_read_aux: build one MREADV frame and exchange it.  The device
collaborator answers a cnt 1 vector read with the e_size bytes at addr, so
the reply payload is that window of memory.  Returns the payload and the
frames issued. -/
def memory_read_aux (chk : Chk) (mem : Mem) (addr length : Nat) :
    List Nat × List (List Nat) :=
  (readBytes mem addr length, [mreadv_frame chk addr length])

/-- memory_read: the three-tier chunking dispatch of the source, with limit
250.  Payloads and request lists are concatenated exactly as the source
concatenates the per-request byte strings. -/
def memory_read (chk : Chk) (mem : Mem) (addr length : Nat) :
    List Nat × List (List Nat) :=
  let limit := 250
  if length < limit then
    memory_read_aux chk mem addr length
  else if length < 2 * limit then
    let r1 := memory_read_aux chk mem addr limit
    let r2 := memory_read_aux chk mem (addr + limit) (length - limit)
    (r1.1 ++ r2.1, r1.2 ++ r2.2)
  else
    let r1 := memory_read_aux chk mem addr limit
    let r2 := memory_read_aux chk mem (addr + limit) limit
    let r3 := memory_read_aux chk mem (addr + 2 * limit) (length - 2 * limit)
    (r1.1 ++ r2.1 ++ r3.1, r1.2 ++ r2.2 ++ r3.2)

/-- memory_cstruct: read one whole record image, size*v_idx + base, size
bytes, through the chunked reader. -/
def memory_cstruct (chk : Chk) (cls : StructSchema) (v_idx : Nat) (mem : Mem) :
    List Nat :=
  (memory_read chk mem (cls.size * v_idx + cls.base) cls.size).1

/-!  ## Memory writer and register accessors -/

/-- One memory_write invocation, recorded as its arguments: the absolute
address, the byte count, and the payload actually stored. -/
structure WriteCall where
  addr : Nat
  length : Nat
  data : List Nat
  deriving DecidableEq

/-- memory_write: build the MWRITEV (0xFC) frame [n, 0xFC, addr(4 LE), 1,
length, 0 0, payload, checksum] with n = length + 11 and exchange it.  The
guards mirror the Python failure points: byte_list[0] = n is a ValueError
when n exceeds 255, addr.to_bytes(4) an OverflowError past 2^32, data[i] an
IndexError when data is shorter than length and a ValueError when an entry
is not a byte.  The device collaborator applies the write to its memory; the
result is the new memory together with the recorded call. -/
def memory_write (addr length : Nat) (data : List Nat) (mem : Mem) :
    Except PyError (Mem × WriteCall) :=
  if 255 < length + 11 then .error .valueError
  else if 4294967296 ≤ addr then .error .overflowError
  else if data.length < length then .error .indexError
  else if (data.take length).all (· < 256) then
    .ok (mem_store mem addr (data.take length), ⟨addr, length, data.take length⟩)
  else .error .valueError

/-- cfunc_call: the CALL (0xFA) frame builder.  The source computes argc as
the length of the single tuple entry (the call sites pass one list), builds
a bytearray of n = 8 + 4*argc bytes and then, for every i below argc,
evaluates args[i].to_bytes(4, ...) where args[i] is the argument tuple
entry: for i = 0 that entry is the list itself, which has no to_bytes
method, so any nonzero argc raises before the checksum is appended and
before anything is sent.  For argc = 0 the frame is completed with
rcb4_checksum(byte_list[0:n-1]) and exchanged.  byte_list[0] = n raises a
ValueError first when n exceeds 255. -/
def cfunc_call (chk : Chk) (sw : List Nat → List Nat) (addr : Nat)
    (args : List Int) : Except PyError (List Nat) × List (List Nat) :=
  let argc := args.length
  let n := 8 + 4 * argc
  if 255 < n then (.error .valueError, [])
  else if 4294967296 ≤ addr then (.error .overflowError, [])
  else if argc = 0 then
    let bl := ((List.replicate n 0).set 0 n).set 1 0xFA
    let bl := ((bl.set 2 (addr % 256)).set 3 (addr / 256 % 256)).set 4 (addr / 65536 % 256)
    let bl := (bl.set 5 (addr / 16777216 % 256)).set 6 argc
    let bl := bl.set (n - 1) (chk (bl.take (n - 1)))
    (.ok (sw bl), [bl])
  else (.error .attributeError, [])

/-- write_cls_alist: a single-record single-field write.  The target address
is base + idx*record_size + field_offset; the payload is one packed element
of the field type, zero-padded into a bytearray of the slot size (the
element and the slot have the same size for the supported types).  Only the
float, uint16 and uint8 tags are implemented; every other tag raises
RuntimeError.  struct.pack range failures on out-of-range integers surface
as struct.error.  fpack is the external float32 bit packer. -/
def write_cls_alist (fpack : Int → List Nat) (cls : StructSchema) (idx : Nat)
    (slot_name : String) (vec : List Int) (mem : Mem) :
    Except PyError (Mem × WriteCall) :=
  match cls.fields.lookup slot_name with
  | none => .error .keyError
  | some ft =>
    let slot_size := c_type_to_size ft.c_type
    let addr := cls.base + idx * cls.size + ft.offset
    match vec.head? with
    | none => .error .indexError
    | some v =>
      match ft.c_type with
      | .float =>
          let byte_data := fpack v
          memory_write addr slot_size
            (byte_data ++ List.replicate (slot_size - byte_data.length) 0) mem
      | .uint16 =>
          if 0 ≤ v ∧ v < 65536 then memory_write addr slot_size (le2 v.toNat) mem
          else .error .structError
      | .uint8 =>
          if 0 ≤ v ∧ v < 256 then memory_write addr slot_size [v.toNat] mem
          else .error .structError
      | _ => .error (.runtimeError "not implemented typ")

/-- set_cstruct_slot: like write_cls_alist but with a scalar value, and the
uint8 branch assigns [v] into the bytearray without struct packing, so an
out-of-range value is a ValueError of the bytearray slice assignment. -/
def set_cstruct_slot (fpack : Int → List Nat) (cls : StructSchema) (idx : Nat)
    (slot_name : String) (v : Int) (mem : Mem) :
    Except PyError (Mem × WriteCall) :=
  match cls.fields.lookup slot_name with
  | none => .error .keyError
  | some ft =>
    let slot_size := c_type_to_size ft.c_type
    let addr := cls.base + idx * cls.size + ft.offset
    match ft.c_type with
    | .float =>
        let byte_data := fpack v
        memory_write addr slot_size
          (byte_data ++ List.replicate (slot_size - byte_data.length) 0) mem
    | .uint16 =>
        if 0 ≤ v ∧ v < 65536 then memory_write addr slot_size (le2 v.toNat) mem
        else .error .structError
    | .uint8 =>
        if 0 ≤ v ∧ v < 256 then memory_write addr slot_size [v.toNat] mem
        else .error .structError
    | _ => .error (.runtimeError "not implemented typ")

/-- The MREADV frame of read_cstruct_slot_v, built over a numpy uint8 array:
every stored value is reduced mod 256.  Byte 6 is the array length, byte 7
the element size, byte 8 the record size; byte 9 is never assigned and
stays 0.  The checksum is computed over the array whose last entry still
holds 0. -/
def mreadv_slot_frame (chk : Chk) (cls : StructSchema) (ft : FieldType) : List Nat :=
  let a := cls.base + ft.offset
  let body :=
    [11, 0xFB, a % 256, a / 256 % 256, a / 65536 % 256, a / 16777216 % 256,
     cls.vcnt % 256, c_type_to_size ft.c_type % 256, cls.size % 256, 0]
  body ++ [chk (body ++ [0]) % 256]

/-- read_cstruct_slot_v: one slot-vector read request, then
np.frombuffer(reply, dtype np.uint16) regardless of the declared field type
(a ValueError when the reply length is odd).  sw is the serial_write
collaborator returning the reply payload. -/
def read_cstruct_slot_v (chk : Chk) (sw : List Nat → List Nat)
    (cls : StructSchema) (slot_name : String) :
    Except PyError (List Nat) × List (List Nat) :=
  match cls.fields.lookup slot_name with
  | none => (.error .keyError, [])
  | some ft =>
    let bl := mreadv_slot_frame chk cls ft
    let b := sw bl
    if b.length % 2 = 0 then (.ok (u16_pairs b), [bl])
    else (.error .valueError, [bl])

/-- slot_vector_from_str: decodes a slot vector reply.  For any nonzero
vector length the first unpack_from computes offset + i * esize where esize
was bound to the c_type tag, a string, and adding an int to a string raises
TypeError; only the empty vector succeeds, with an empty result. -/
def slot_vector_from_str (_byte_str : List Nat) (cls : StructSchema)
    (slot_name : String) : Except PyError (List Int) :=
  match cls.fields.lookup slot_name with
  | none => .error .keyError
  | some _ => if cls.vcnt = 0 then .ok [] else .error .typeError

/-- write_cstruct_slot_v: the slot-vector write.  When the frame size
n = 11 + tsize*vcnt exceeds 240 the source prints a message and returns
None without raising and without sending.  Otherwise it builds the MWRITEV
header (pack_into I and H raise struct.error on overflow) and fills the
payload: for every i below vcnt the offset expression 10 + i * esize adds
an int to the c_type string, a TypeError, so any nonzero vcnt raises before
the frame is completed or sent; only vcnt = 0 reaches the transport, and
its reply is decoded by slot_vector_from_str. -/
def write_cstruct_slot_v (chk : Chk) (sw : List Nat → List Nat)
    (cls : StructSchema) (slot_name : String) (_vec : List Int) :
    Except PyError (Option (List Int)) × List (List Nat) :=
  match cls.fields.lookup slot_name with
  | none => (.error .keyError, [])
  | some ft =>
    let vcnt := cls.vcnt
    let addr := cls.base
    let skip_size := cls.size
    let tsize := c_type_to_size ft.c_type
    let offset := ft.offset
    let n := 11 + tsize * vcnt
    if 240 < n then (.ok none, [])
    else if vcnt = 0 then
      if 4294967296 ≤ addr + offset then (.error .structError, [])
      else if 65536 ≤ skip_size then (.error .structError, [])
      else
        let body :=
          [n, 0xFC, (addr + offset) % 256, (addr + offset) / 256 % 256,
           (addr + offset) / 65536 % 256, (addr + offset) / 16777216 % 256,
           vcnt, tsize, skip_size % 256, skip_size / 256 % 256]
        let bl := body ++ [chk (body ++ [0])]
        match slot_vector_from_str (sw bl) cls slot_name with
        | .error e => (.error e, [bl])
        | .ok vecr => (.ok (some vecr), [bl])
    else (.error .typeError, [])

/-- servo_angle_vector: the domain-specific multi-servo command frame.  The
rcb4.asm byte helpers (servo id bitfield, velocity clamp, position bytes)
are external collaborators passed as ids5, velEnc and poss.  The length
byte 2 + len is prepended and the checksum of the whole prefixed list is
appended. -/
def servo_angle_vector (chk : Chk) (ids5 : List PyVal → List Nat)
    (velEnc : Nat → Nat) (poss : List PyVal → List Int → List Nat)
    (cmd : Nat) (servo_ids : List PyVal) (servo_vector : List Int)
    (velocity : Nat) : List Nat :=
  let bl := [cmd] ++ ids5 servo_ids ++ [velEnc velocity] ++ poss servo_ids servo_vector
  let bl2 := (2 + bl.length) :: bl
  bl2 ++ [chk bl2]

/-!  ## Device facade: worm modules and wheel servos -/

/-- The scan loop of search_worm_ids over a list of record indices. -/
def search_worm_ids_go (chk : Chk) (cls : StructSchema) (mem : Mem) :
    List Nat → Except PyError (List Nat)
  | [] => .ok []
  | i :: rest => do
      let v ← cstruct_field cls (memory_cstruct chk cls i mem) "module_type"
      let tail ← search_worm_ids_go chk cls mem rest
      if pyval_eq_one v then .ok (i :: tail) else .ok tail

/-- search_worm_ids: scan the worm record array; a record whose module_type
equals 1 is a present worm actuator. -/
def search_worm_ids (chk : Chk) (msn : Nat) (cls : StructSchema) (mem : Mem) :
    Except PyError (List Nat) :=
  search_worm_ids_go chk cls mem (List.range msn)

/-- read_worm_angle: an index outside [0, max_sensor_num) or outside the
cached worm id list only prints an error message; the function then reads
the record at idx anyway and returns its present_angle field together with
the (possibly freshly scanned) worm id cache. -/
def read_worm_angle (chk : Chk) (msn : Nat) (cls : StructSchema)
    (worm_sorted_ids : Option (List Nat)) (idx : Nat) (mem : Mem) :
    Except PyError (PyVal × List Nat) := do
  let ids ← match worm_sorted_ids with
    | none => search_worm_ids chk msn cls mem
    | some l => Except.ok l
  let v ← cstruct_field cls (memory_cstruct chk cls idx mem) "present_angle"
  Except.ok (v, ids)

/-- One optional single-field write of send_worm_calib_data: a None value is
a no-op, a present value is one write_cls_alist call appended to the log. -/
def opt_write (fpack : Int → List Nat) (cls : StructSchema) (idx : Nat)
    (slot : String) (vO : Option Int) (mem : Mem) (ws : List WriteCall) :
    Except PyError (Mem × List WriteCall) :=
  match vO with
  | none => .ok (mem, ws)
  | some v =>
      (write_cls_alist fpack cls idx slot [v] mem).map fun p => (p.1, ws ++ [p.2])

/-- send_worm_calib_data: an invalid worm_idx prints and returns None with
no writes.  Otherwise the optional fields are written one by one through
write_cls_alist (None is a no-op), move_state is always reset to 0, the
magnetic-encoder offset is reduced mod 2^14, and finally the whole record
is read back and returned. -/
def send_worm_calib_data (chk : Chk) (fpack : Int → List Nat) (msn : Nat)
    (cls : StructSchema) (worm_idx : Nat)
    (servo_idxO sensor_idxO module_typeO magenc_offsetO upper_limitO
     thleshold_scaleO timeout_time_scaleO gearRO : Option Int) (mem : Mem) :
    Except PyError (Option (List Nat) × Mem × List WriteCall) :=
  if worm_idx < msn then do
    let (m1, w1) ← opt_write fpack cls worm_idx "module_type" module_typeO mem []
    let (m2, w2) ← opt_write fpack cls worm_idx "servo_id" servo_idxO m1 w1
    let (m3, w3) ← opt_write fpack cls worm_idx "sensor_id" sensor_idxO m2 w2
    let (m4, w4) ←
      (write_cls_alist fpack cls worm_idx "move_state" [0] m3).map fun p => (p.1, w3 ++ [p.2])
    let (m5, w5) ← opt_write fpack cls worm_idx "magenc_init"
      (magenc_offsetO.map fun m => m % 16384) m4 w4
    let (m6, w6) ← opt_write fpack cls worm_idx "linear_upper_limit" upper_limitO m5 w5
    let (m7, w7) ← opt_write fpack cls worm_idx "thleshold_scale" thleshold_scaleO m6 w6
    let (m8, w8) ← opt_write fpack cls worm_idx "timeout_time_scale" timeout_time_scaleO m7 w7
    let (m9, w9) ← opt_write fpack cls worm_idx "gear_ratio" gearRO m8 w8
    Except.ok (some (memory_cstruct chk cls worm_idx m9), m9, w9)
  else Except.ok (none, mem, [])

/-- send_worm_angle_and_threshold: an invalid worm_idx prints and returns
None with no writes and no command frame.  Otherwise the worm record is
read, ref_angle, thleshold and thleshold_scale are written, one
servo_angle_vector command frame for the linked servo is sent with position
sign*135*30 + 7500 and velocity 10, and the re-read record is returned. -/
def send_worm_angle_and_threshold (chk : Chk) (fpack : Int → List Nat)
    (ids5 : List PyVal → List Nat) (velEnc : Nat → Nat)
    (poss : List PyVal → List Int → List Nat) (cmd : Nat) (msn : Nat)
    (cls : StructSchema) (worm_idx : Nat)
    (angle threshold threshold_scale : Int) (sign : Int) (mem : Mem) :
    Except PyError (Option (List Nat) × Mem × List WriteCall × List (List Nat)) :=
  if worm_idx < msn then do
    let worm := memory_cstruct chk cls worm_idx mem
    let sid ← cstruct_field cls worm "servo_id"
    let (m1, w1) ← write_cls_alist fpack cls worm_idx "ref_angle" [angle] mem
    let (m2, w2) ← write_cls_alist fpack cls worm_idx "thleshold" [threshold] m1
    let (m3, w3) ← write_cls_alist fpack cls worm_idx "thleshold_scale" [threshold_scale] m2
    let frame := servo_angle_vector chk ids5 velEnc poss cmd [sid] [sign * 4050 + 7500] 10
    Except.ok (some (memory_cstruct chk cls worm_idx m3), m3, [w1, w2, w3], [frame])
  else Except.ok (none, mem, [], [])

/-- The scan loop of search_wheel_sids: for each previously discovered servo
id, read its record once; a positive rotation flag collects it as a wheel
servo, and independently of that a positive feedback flag is reset to 0
through set_cstruct_slot. -/
def search_wheel_sids_go (chk : Chk) (fpack : Int → List Nat)
    (cls : StructSchema) : List Nat → List Nat → Mem →
    Except PyError (List Nat × Mem)
  | [], indices, mem => .ok (indices, mem)
  | idx :: rest, indices, mem => do
      let buf := memory_cstruct chk cls idx mem
      let rot ← cstruct_field cls buf "rotation"
      let rotPos ← pyval_gt_zero rot
      let indices2 := if rotPos then indices ++ [idx] else indices
      let fb ← cstruct_field cls buf "feedback"
      let fbPos ← pyval_gt_zero fb
      if fbPos then
        match set_cstruct_slot fpack cls idx "feedback" 0 mem with
        | .error e => .error e
        | .ok (mem2, _) => search_wheel_sids_go chk fpack cls rest indices2 mem2
      else search_wheel_sids_go chk fpack cls rest indices2 mem

/-- search_wheel_sids: run the scan over the cached servo id list; the
sorted copy is stored as the wheel id cache and the unsorted list is
returned.  Result: (returned indices, cached sorted indices, memory). -/
def search_wheel_sids (chk : Chk) (fpack : Int → List Nat)
    (cls : StructSchema) (servo_sorted_ids : List Nat) (mem : Mem) :
    Except PyError (List Nat × List Nat × Mem) :=
  (search_wheel_sids_go chk fpack cls servo_sorted_ids [] mem).map fun p =>
    (p.1, p.1.mergeSort, p.2)

/-!  ## Sample collaborators and modelled schemas for concrete instances -/

/-- A sample single-byte checksum collaborator for concrete instances (the
real rcb4_checksum lives in rcb4.asm, outside src/, and all theorems below
are parametric in it). -/
def chk0 : Chk := fun l => l.sum % 256

/-- A sample float32 bit packer for concrete instances (the real one is
struct.pack, external; all theorems below are parametric in it). -/
def fpack0 : Int → List Nat := fun _ => [0, 0, 0, 0]

/-- An all-zero device memory for concrete instances. -/
def memZero : Mem := fun _ => 0

/-- Modelled from the spec: rcb4.struct_header is not under src/, so the
WormmoduleStruct layout is representative: the field names are those the
source uses, the numeric kinds follow spec section 4.6 (ids and state flags
are bytes, the 14-bit magnetic-encoder offset a uint16, limits and scales
float32), offsets are packed in declaration order. -/
def WormmoduleStructM : StructSchema :=
  ⟨0x20001000, 36, 8,
   [("module_type", ⟨.uint8, 0⟩), ("servo_id", ⟨.uint8, 1⟩),
    ("sensor_id", ⟨.uint8, 2⟩), ("move_state", ⟨.uint8, 3⟩),
    ("magenc_init", ⟨.uint16, 4⟩), ("present_angle", ⟨.float, 8⟩),
    ("ref_angle", ⟨.float, 12⟩), ("thleshold", ⟨.float, 16⟩),
    ("thleshold_scale", ⟨.float, 20⟩), ("timeout_time_scale", ⟨.float, 24⟩),
    ("gear_ratio", ⟨.float, 28⟩), ("linear_upper_limit", ⟨.float, 32⟩)]⟩

/-- Modelled from the spec: a representative ServoStruct layout (the real
one lives in rcb4.struct_header, outside src/): flag, rotation and feedback
are byte flags at distinct offsets inside a 64-byte record. -/
def ServoStructM : StructSchema :=
  ⟨0x20000000, 64, 36,
   [("flag", ⟨.uint8, 0⟩), ("rotation", ⟨.uint8, 12⟩),
    ("feedback", ⟨.uint8, 13⟩), ("ref_angle", ⟨.uint16, 2⟩),
    ("current_angle", ⟨.uint16, 4⟩)]⟩

/-- Modelled from the spec: a schema with a float32 slot, used to exercise
the slot-vector read decode path on a non-uint16 field. -/
def FloatSlotSchemaM : StructSchema :=
  ⟨0x20002000, 32, 1, [("q0", ⟨.float, 4⟩)]⟩

/-- Modelled from the spec: a schema whose slot vector does not fit in one
240-byte write frame: 11 + 2 * 120 = 251. -/
def WideSchemaM : StructSchema :=
  ⟨0x20003000, 2, 120, [("x", ⟨.uint16, 0⟩)]⟩

/-- Follows the claim wording (spec section 4.5): decode the reply of a
slot-vector read per the declared numeric type of the field, one value per
record.  This is the specification-side decoder that claim C2 attributes to
read_cstruct_slot_v; it exists only to be compared with the source-side
np.uint16 decode. -/
def decode_elements_spec (ct : CType) (bs : List Nat) : List PyVal :=
  (List.range (bs.length / c_type_to_size ct)).map fun i =>
    decode_field ct (bs.drop (i * c_type_to_size ct))

/-!  ## Helper lemmas -/

theorem readBytes_append (mem : Mem) (addr a b : Nat) :
    readBytes mem addr a ++ readBytes mem (addr + a) b = readBytes mem addr (a + b) := by
  simp [readBytes, List.range_add, List.map_map, Function.comp, Nat.add_assoc]

theorem memory_read_fst (chk : Chk) (mem : Mem) (addr L : Nat) :
    (memory_read chk mem addr L).1 = readBytes mem addr L := by
  by_cases h1 : L < 250
  · simp [memory_read, memory_read_aux, h1]
  · by_cases h2 : L < 2 * 250
    · simp only [memory_read, memory_read_aux, h1, h2, if_false, if_true]
      rw [readBytes_append]
      congr 1
      omega
    · simp only [memory_read, memory_read_aux, h1, h2, if_false]
      rw [List.append_assoc, readBytes_append, readBytes_append]
      congr 1
      omega

theorem readBytes_length (mem : Mem) (a L : Nat) : (readBytes mem a L).length = L := by
  simp [readBytes]

theorem readBytes_getD (mem : Mem) (a L i : Nat) (h : i < L) :
    (readBytes mem a L).getD i 0 = mem (a + i) := by
  rw [List.getD_eq_getElem?_getD]
  simp [readBytes, List.getElem?_range, h]

theorem getD_drop (l : List Nat) (n i : Nat) :
    (l.drop n).getD i 0 = l.getD (n + i) 0 := by
  rw [List.getD_eq_getElem?_getD, List.getD_eq_getElem?_getD, List.getElem?_drop]

theorem mul_add_inj (s i j x y : Nat) (hx : x < s) (hy : y < s)
    (h : s * i + x = s * j + y) : i = j ∧ x = y := by
  have hs : 0 < s := Nat.lt_of_le_of_lt (Nat.zero_le x) hx
  have hij : i = j := by
    have h1 := congrArg (· / s) h
    simpa [Nat.mul_add_div hs, Nat.div_eq_of_lt hx, Nat.div_eq_of_lt hy] using h1
  subst hij
  exact ⟨rfl, by omega⟩

theorem cstruct_field_byteflag (chk : Chk) (cls : StructSchema) (mem : Mem)
    (idx off : Nat) (slot : String)
    (hft : cls.fields.lookup slot = some ⟨CType.uint8, off⟩)
    (hoff : off < cls.size) :
    cstruct_field cls (memory_cstruct chk cls idx mem) slot =
      .ok (.int (mem (cls.base + cls.size * idx + off))) := by
  simp only [cstruct_field, hft, memory_cstruct, memory_read_fst, decode_field]
  rw [getD_drop, Nat.add_zero, readBytes_getD mem _ _ _ hoff]
  have he : cls.size * idx + cls.base + off = cls.base + cls.size * idx + off := by ring
  rw [he]

/-!  ## Claim theorems -/

/-- C1 (amended): memory_read issues exactly one MREADV request when the
requested length is strictly below 250 bytes (at exactly 250 the source
takes the two-request branch), exactly two requests of 250 bytes then the
remainder for lengths in [250, 500), and exactly three requests of 250, 250
and the remainder for lengths in [500, 750); in every tier the returned
bytes are the concatenation of the per-request windows in ascending address
order, which equals the contiguous window of the requested length. -/
theorem memory_read_three_tier (chk : Chk) (mem : Mem) (addr L : Nat) :
    (L < 250 →
      memory_read chk mem addr L = (readBytes mem addr L, [mreadv_frame chk addr L])) ∧
    (250 ≤ L → L < 500 →
      memory_read chk mem addr L =
        (readBytes mem addr 250 ++ readBytes mem (addr + 250) (L - 250),
         [mreadv_frame chk addr 250, mreadv_frame chk (addr + 250) (L - 250)]) ∧
      readBytes mem addr 250 ++ readBytes mem (addr + 250) (L - 250) =
        readBytes mem addr L) ∧
    (500 ≤ L → L < 750 →
      memory_read chk mem addr L =
        (readBytes mem addr 250 ++ readBytes mem (addr + 250) 250 ++
           readBytes mem (addr + 500) (L - 500),
         [mreadv_frame chk addr 250, mreadv_frame chk (addr + 250) 250,
          mreadv_frame chk (addr + 500) (L - 500)]) ∧
      readBytes mem addr 250 ++ readBytes mem (addr + 250) 250 ++
          readBytes mem (addr + 500) (L - 500) =
        readBytes mem addr L) := by
  refine ⟨fun h1 => ?_, fun h1 h2 => ⟨?_, ?_⟩, fun h1 h2 => ⟨?_, ?_⟩⟩
  · simp [memory_read, memory_read_aux, h1]
  · have hx : ¬L < 250 := by omega
    have hy : L < 2 * 250 := by omega
    simp [memory_read, memory_read_aux, hx, hy]
  · rw [readBytes_append]
    congr 1
    omega
  · have hx : ¬L < 250 := by omega
    have hy : ¬L < 2 * 250 := by omega
    have hz : addr + 2 * 250 = addr + 500 := by omega
    have hw : L - 2 * 250 = L - 500 := by omega
    simp [memory_read, memory_read_aux, hx, hy, hz, hw]
  · rw [List.append_assoc, readBytes_append, readBytes_append]
    congr 1
    omega

theorem memory_read_three_tier_witness :
    (memory_read chk0 (fun a => a % 256) 0 300 =
      (readBytes (fun a => a % 256) 0 250 ++ readBytes (fun a => a % 256) 250 50,
       [mreadv_frame chk0 0 250, mreadv_frame chk0 250 50]) ∧
     readBytes (fun a => a % 256) 0 250 ++ readBytes (fun a => a % 256) 250 50 =
       readBytes (fun a => a % 256) 0 300) :=
  (memory_read_three_tier chk0 (fun a => a % 256) 0 300).2.1 (by omega) (by omega)

/-- C1 counterexample: the claim as stated says a read of length at most 250
issues exactly one request, but at exactly 250 the source issues two (250
and a degenerate 0-byte remainder). -/
theorem memory_read_at_250_two_requests :
    (memory_read chk0 memZero 0 250).2.length = 2 ∧
    ¬(memory_read chk0 memZero 0 250).2.length = 1 := by
  constructor
  · rfl
  · intro h
    simp [memory_read, memory_read_aux, memZero] at h

/-- C2 (amended): read_cstruct_slot_v issues exactly one vector-read frame
[11, 0xFB, (base + field offset) as 4 LE bytes, array length mod 256, field
type size, record size mod 256, 0, checksum], so the stride field carries
only the low byte of the record size (byte 9 is never assigned) and equals
the 2-byte little-endian record size exactly when the record size is below
256; and the reply is decoded as consecutive little-endian uint16 pairs
regardless of the declared numeric type of the field. -/
theorem read_cstruct_slot_v_spec (chk : Chk) (sw : List Nat → List Nat)
    (cls : StructSchema) (slot : String) (ft : FieldType)
    (hft : cls.fields.lookup slot = some ft)
    (hev : (sw (mreadv_slot_frame chk cls ft)).length % 2 = 0) :
    read_cstruct_slot_v chk sw cls slot =
      (.ok (u16_pairs (sw (mreadv_slot_frame chk cls ft))),
       [mreadv_slot_frame chk cls ft]) ∧
    mreadv_slot_frame chk cls ft =
      [11, 0xFB] ++ le4 (cls.base + ft.offset) ++
        [cls.vcnt % 256, c_type_to_size ft.c_type % 256, cls.size % 256, 0] ++
        [chk ([11, 0xFB] ++ le4 (cls.base + ft.offset) ++
           [cls.vcnt % 256, c_type_to_size ft.c_type % 256, cls.size % 256, 0, 0]) % 256] := by
  constructor
  · simp [read_cstruct_slot_v, hft, hev]
  · simp [mreadv_slot_frame, le4]

theorem read_cstruct_slot_v_spec_witness :
    read_cstruct_slot_v chk0 (fun _ => [1, 0, 2, 0]) ServoStructM "current_angle" =
      (.ok (u16_pairs ((fun _ => [1, 0, 2, 0]) (mreadv_slot_frame chk0 ServoStructM ⟨CType.uint16, 4⟩))),
       [mreadv_slot_frame chk0 ServoStructM ⟨CType.uint16, 4⟩]) :=
  (read_cstruct_slot_v_spec chk0 (fun _ => [1, 0, 2, 0]) ServoStructM
    "current_angle" ⟨CType.uint16, 4⟩ (by decide) (by decide)).1

/-- C2 counterexample: on a float32 slot with array length 1 the claim
demands one decoded float per record, but the source decodes the 4-byte
reply as two uint16 values; the specification-side per-type decoder yields
a single element for the same reply. -/
theorem read_cstruct_slot_v_float_decoded_as_u16 :
    (read_cstruct_slot_v chk0 (fun _ => [1, 2, 3, 4]) FloatSlotSchemaM "q0").1 =
      .ok [513, 1027] ∧
    FloatSlotSchemaM.vcnt = 1 ∧
    decode_elements_spec CType.float [1, 2, 3, 4] = [PyVal.raw [1, 2, 3, 4]] ∧
    ¬([513, 1027] : List Nat).length = (decode_elements_spec CType.float [1, 2, 3, 4]).length := by
  refine ⟨rfl, rfl, by decide, by decide⟩

/-- C4 (amended): a slot-vector write whose frame size 11 + type_size *
array_length exceeds 240 bytes sends nothing on the transport, but it does
not raise a typed PayloadTooLarge error: the source prints a message and
returns None, so the call succeeds with value None and an empty send log. -/
theorem write_cstruct_slot_v_too_large (chk : Chk) (sw : List Nat → List Nat)
    (cls : StructSchema) (slot : String) (ft : FieldType) (vec : List Int)
    (hft : cls.fields.lookup slot = some ft)
    (hbig : 240 < 11 + c_type_to_size ft.c_type * cls.vcnt) :
    write_cstruct_slot_v chk sw cls slot vec = (.ok none, []) := by
  simp [write_cstruct_slot_v, hft, hbig]

theorem write_cstruct_slot_v_too_large_witness :
    write_cstruct_slot_v chk0 (fun _ => []) WideSchemaM "x" [] = (.ok none, []) :=
  write_cstruct_slot_v_too_large chk0 (fun _ => []) WideSchemaM "x"
    ⟨CType.uint16, 0⟩ [] (by decide) (by decide)

/-- C4 counterexample: on a schema whose slot vector needs a 251-byte frame
the claim demands a PayloadTooLarge failure, but the call returns
successfully with None (and indeed sends nothing). -/
theorem write_cstruct_slot_v_too_large_no_error :
    (write_cstruct_slot_v chk0 (fun _ => []) WideSchemaM "x" [7]).1 = .ok none ∧
    (write_cstruct_slot_v chk0 (fun _ => []) WideSchemaM "x" [7]).2 = [] ∧
    ∀ e : PyError, ¬(write_cstruct_slot_v chk0 (fun _ => []) WideSchemaM "x" [7]).1 = .error e := by
  refine ⟨rfl, rfl, fun e h => ?_⟩
  rw [show (write_cstruct_slot_v chk0 (fun _ => []) WideSchemaM "x" [7]).1 = .ok none from rfl] at h
  exact Except.noConfusion h

/-- C5 (amended): for an empty argument list cfunc_call builds and sends
the frame [8, 0xFA, addr as 4 little-endian bytes, 0, checksum]; for any
nonempty argument list the source evaluates args[i].to_bytes where args[i]
is the argument-list object itself, so the call raises before the checksum
is computed and nothing is sent (an AttributeError while the frame still
fits in a bytearray, a ValueError on the length byte beyond 61 arguments). -/
theorem cfunc_call_args (chk : Chk) (sw : List Nat → List Nat) (addr : Nat)
    (haddr : addr < 4294967296) :
    (cfunc_call chk sw addr [] =
      (.ok (sw ([8, 0xFA] ++ le4 addr ++ [0, chk ([8, 0xFA] ++ le4 addr ++ [0])])),
       [[8, 0xFA] ++ le4 addr ++ [0, chk ([8, 0xFA] ++ le4 addr ++ [0])]])) ∧
    (∀ args : List Int, ¬args = [] → args.length ≤ 61 →
      cfunc_call chk sw addr args = (.error .attributeError, [])) ∧
    (∀ args : List Int, ¬args = [] →
      ∃ e : PyError, cfunc_call chk sw addr args = (.error e, [])) := by
  have hna : ¬4294967296 ≤ addr := by omega
  refine ⟨?_, fun args hne hlen => ?_, fun args hne => ?_⟩
  · simp [cfunc_call, le4, hna]
  · have h0 : ¬args.length = 0 := by
      intro h
      exact hne (List.length_eq_zero.mp h)
    have h1 : ¬255 < 8 + 4 * args.length := by omega
    simp [cfunc_call, hna, h0, h1]
  · by_cases hlen : args.length ≤ 61
    · have h0 : ¬args.length = 0 := by
        intro h
        exact hne (List.length_eq_zero.mp h)
      have h1 : ¬255 < 8 + 4 * args.length := by omega
      exact ⟨.attributeError, by simp [cfunc_call, hna, h0, h1]⟩
    · have h1 : 255 < 8 + 4 * args.length := by omega
      exact ⟨.valueError, by simp [cfunc_call, h1]⟩

theorem cfunc_call_args_witness :
    cfunc_call chk0 (fun _ => [6]) 4096 [] =
      (.ok ((fun _ => [6]) ([8, 0xFA] ++ le4 4096 ++ [0, chk0 ([8, 0xFA] ++ le4 4096 ++ [0])])),
       [[8, 0xFA] ++ le4 4096 ++ [0, chk0 ([8, 0xFA] ++ le4 4096 ++ [0])]]) ∧
    cfunc_call chk0 (fun _ => [6]) 4096 [5] = (.error .attributeError, []) :=
  ⟨(cfunc_call_args chk0 (fun _ => [6]) 4096 (by omega)).1,
   (cfunc_call_args chk0 (fun _ => [6]) 4096 (by omega)).2.1 [5] (by decide) (by decide)⟩

/-- C5 counterexample: with one argument the claim demands a sent frame of
total length 12 carrying the argument in a 4-byte little-endian span, but
the source raises before sending and the send log stays empty. -/
theorem cfunc_call_one_arg_raises :
    cfunc_call chk0 (fun _ => [6]) 4096 [5] = (.error .attributeError, []) ∧
    (cfunc_call chk0 (fun _ => [6]) 4096 [5]).2.length = 0 := by
  exact ⟨rfl, rfl⟩

/-- C10 (confirmed): with an unopened serial handle, serial_write raises
RuntimeError before writing anything to the transport (its send log is
empty) and serial_read raises RuntimeError before reading anything. -/
theorem serial_unopened_runtime_error (byte_list : List Nat) :
    serial_write none byte_list = (.error (.runtimeError "Serial is not opened."), []) ∧
    serial_read none = .error (.runtimeError "Serial is not opened.") :=
  ⟨rfl, rfl⟩

/-- C9 (confirmed): write_cls_alist writes a one-element payload of exactly
the field type size, via memory_write, at base + index * record_size +
field_offset, for the float32, uint16 and uint8 kinds; every other numeric
kind fails with the RuntimeError that realizes UnsupportedFieldType. -/
theorem write_cls_alist_spec (fpack : Int → List Nat) (cls : StructSchema)
    (idx : Nat) (slot : String) (ft : FieldType) (v : Int) (rest : List Int)
    (mem : Mem)
    (hft : cls.fields.lookup slot = some ft)
    (haddr : cls.base + idx * cls.size + ft.offset < 4294967296) :
    (ft.c_type = CType.uint8 → 0 ≤ v → v < 256 →
      write_cls_alist fpack cls idx slot (v :: rest) mem =
        .ok (mem_store mem (cls.base + idx * cls.size + ft.offset) [v.toNat],
             ⟨cls.base + idx * cls.size + ft.offset, 1, [v.toNat]⟩)) ∧
    (ft.c_type = CType.uint16 → 0 ≤ v → v < 65536 →
      write_cls_alist fpack cls idx slot (v :: rest) mem =
        .ok (mem_store mem (cls.base + idx * cls.size + ft.offset) (le2 v.toNat),
             ⟨cls.base + idx * cls.size + ft.offset, 2, le2 v.toNat⟩)) ∧
    (ft.c_type = CType.float → (fpack v).length = 4 → (∀ b ∈ fpack v, b < 256) →
      write_cls_alist fpack cls idx slot (v :: rest) mem =
        .ok (mem_store mem (cls.base + idx * cls.size + ft.offset) (fpack v),
             ⟨cls.base + idx * cls.size + ft.offset, 4, fpack v⟩)) ∧
    (ft.c_type = CType.integer ∨ ft.c_type = CType.byte ∨
       ft.c_type = CType.short ∨ ft.c_type = CType.double →
      write_cls_alist fpack cls idx slot (v :: rest) mem =
        .error (.runtimeError "not implemented typ")) := by
  have hna : ¬4294967296 ≤ cls.base + idx * cls.size + ft.offset := by omega
  refine ⟨fun ht h0 h1 => ?_, fun ht h0 h1 => ?_, fun ht hlen hbytes => ?_, fun ht => ?_⟩
  · have hv : v.toNat < 256 := by omega
    simp [write_cls_alist, hft, ht, h0, h1, memory_write, hna, c_type_to_size, hv]
  · have hv0 : v.toNat % 256 < 256 := Nat.mod_lt _ (by omega)
    have hv1 : v.toNat / 256 % 256 < 256 := Nat.mod_lt _ (by omega)
    simp [write_cls_alist, hft, ht, h0, h1, memory_write, hna, c_type_to_size, le2, hv0, hv1]
  · have htake : (fpack v).take 4 = fpack v := by
      rw [← hlen]
      exact List.take_length (fpack v)
    have hall : ((fpack v).take 4).all (· < 256) = true := by
      rw [htake]
      exact List.all_eq_true.mpr fun b hb => decide_eq_true (hbytes b hb)
    simp [write_cls_alist, hft, ht, memory_write, hna, c_type_to_size, hlen, htake, hall]
    exact hbytes
  · rcases ht with h | h | h | h <;> simp [write_cls_alist, hft, h]

theorem write_cls_alist_spec_witness :
    write_cls_alist fpack0 WormmoduleStructM 2 "move_state" [0] memZero =
      .ok (mem_store memZero (WormmoduleStructM.base + 2 * WormmoduleStructM.size + 3) [(0 : Int).toNat],
           ⟨WormmoduleStructM.base + 2 * WormmoduleStructM.size + 3, 1, [(0 : Int).toNat]⟩) :=
  (write_cls_alist_spec fpack0 WormmoduleStructM 2 "move_state" ⟨CType.uint8, 3⟩
    0 [] memZero (by decide) (by decide)).1 rfl (by decide) (by decide)

/-- C6 (confirmed): with a valid worm index, magenc_offset present and every
other optional field None, send_worm_calib_data performs exactly two
single-field writes, move_state := 0 and magenc_init := magenc_offset mod
2^14, in that order; every byte of device memory outside those two field
spans, in particular every other field of the worm-module record, is left
unchanged. -/
theorem send_worm_calib_data_magenc_only (chk : Chk) (fpack : Int → List Nat)
    (msn : Nat) (cls : StructSchema) (worm_idx : Nat) (m : Int) (mem : Mem)
    (oms omi : Nat)
    (hidx : worm_idx < msn)
    (hms : cls.fields.lookup "move_state" = some ⟨CType.uint8, oms⟩)
    (hmi : cls.fields.lookup "magenc_init" = some ⟨CType.uint16, omi⟩)
    (hams : cls.base + worm_idx * cls.size + oms < 4294967296)
    (hami : cls.base + worm_idx * cls.size + omi < 4294967296) :
    ∃ mem2 : Mem,
      send_worm_calib_data chk fpack msn cls worm_idx
          none none none (some m) none none none none mem =
        .ok (some (memory_cstruct chk cls worm_idx mem2), mem2,
             [⟨cls.base + worm_idx * cls.size + oms, 1, [0]⟩,
              ⟨cls.base + worm_idx * cls.size + omi, 2, le2 (m % 16384).toNat⟩]) ∧
      ∀ a : Nat, ¬a = cls.base + worm_idx * cls.size + oms →
        ¬(cls.base + worm_idx * cls.size + omi ≤ a ∧
            a < cls.base + worm_idx * cls.size + omi + 2) →
        mem2 a = mem a := by
  have hna1 : ¬4294967296 ≤ cls.base + worm_idx * cls.size + oms := by omega
  have hna2 : ¬4294967296 ≤ cls.base + worm_idx * cls.size + omi := by omega
  have hv0 : (0 : Int) ≤ m % 16384 := Int.emod_nonneg m (by omega)
  have hv1 : m % 16384 < 65536 := lt_trans (Int.emod_lt_of_pos m (by omega)) (by omega)
  have hb0 : (m % 16384).toNat % 256 < 256 := Nat.mod_lt _ (by omega)
  have hb1 : (m % 16384).toNat / 256 % 256 < 256 := Nat.mod_lt _ (by omega)
  refine ⟨mem_store (mem_store mem (cls.base + worm_idx * cls.size + oms) [0])
      (cls.base + worm_idx * cls.size + omi) (le2 (m % 16384).toNat), ?_, ?_⟩
  · simp [send_worm_calib_data, opt_write, write_cls_alist, hms, hmi, hidx,
      memory_write, hna1, hna2, c_type_to_size, le2, hv0, hv1, hb0, hb1,
      Except.instMonad, Except.bind, Except.map]
  · intro a h1 h2
    simp only [mem_store, le2, List.length_cons, List.length_singleton, List.length_nil]
    rw [if_neg (by omega), if_neg (by omega)]

theorem send_worm_calib_data_magenc_only_witness :
    ∃ mem2 : Mem,
      send_worm_calib_data chk0 fpack0 8 WormmoduleStructM 1
          none none none (some 20000) none none none none memZero =
        .ok (some (memory_cstruct chk0 WormmoduleStructM 1 mem2), mem2,
             [⟨WormmoduleStructM.base + 1 * WormmoduleStructM.size + 3, 1, [0]⟩,
              ⟨WormmoduleStructM.base + 1 * WormmoduleStructM.size + 4, 2,
               le2 ((20000 : Int) % 16384).toNat⟩]) ∧
      ∀ a : Nat, ¬a = WormmoduleStructM.base + 1 * WormmoduleStructM.size + 3 →
        ¬(WormmoduleStructM.base + 1 * WormmoduleStructM.size + 4 ≤ a ∧
            a < WormmoduleStructM.base + 1 * WormmoduleStructM.size + 4 + 2) →
        mem2 a = memZero a :=
  send_worm_calib_data_magenc_only chk0 fpack0 8 WormmoduleStructM 1 20000 memZero 3 4
    (by omega) (by decide) (by decide) (by decide) (by decide)

/-- C8 (amended): an out-of-range record index makes the worm-module domain
operations print a message but does not raise a typed InvalidIndex error:
read_worm_angle goes on to read the out-of-range record and returns its
present_angle field, while send_worm_angle_and_threshold and
send_worm_calib_data return None without performing any write or send. -/
theorem invalid_index_only_prints (chk : Chk) (fpack : Int → List Nat)
    (ids5 : List PyVal → List Nat) (velEnc : Nat → Nat)
    (poss : List PyVal → List Int → List Nat) (cmd msn : Nat)
    (cls : StructSchema) (idx : Nat) (mem : Mem) (cache : List Nat)
    (pa : FieldType) (angle threshold threshold_scale sign : Int)
    (s1 s2 s3 s4 s5 s6 s7 s8 : Option Int)
    (hinv : msn ≤ idx)
    (hpa : cls.fields.lookup "present_angle" = some pa) :
    (∃ v : PyVal, read_worm_angle chk msn cls (some cache) idx mem = .ok (v, cache)) ∧
    send_worm_angle_and_threshold chk fpack ids5 velEnc poss cmd msn cls idx
        angle threshold threshold_scale sign mem = .ok (none, mem, [], []) ∧
    send_worm_calib_data chk fpack msn cls idx s1 s2 s3 s4 s5 s6 s7 s8 mem =
      .ok (none, mem, []) := by
  have hn : ¬idx < msn := by omega
  refine ⟨⟨decode_field pa.c_type ((memory_cstruct chk cls idx mem).drop pa.offset), ?_⟩, ?_, ?_⟩
  · simp [read_worm_angle, cstruct_field, hpa, Except.instMonad, Except.bind]
  · simp [send_worm_angle_and_threshold, hn]
  · simp [send_worm_calib_data, hn]

theorem invalid_index_only_prints_witness :
    (∃ v : PyVal, read_worm_angle chk0 8 WormmoduleStructM (some []) 9 memZero = .ok (v, [])) ∧
    send_worm_angle_and_threshold chk0 fpack0 (fun _ => []) id (fun _ _ => []) 16 8
        WormmoduleStructM 9 0 30 1 1 memZero = .ok (none, memZero, [], []) ∧
    send_worm_calib_data chk0 fpack0 8 WormmoduleStructM 9
        none none none (some 5) none none none none memZero = .ok (none, memZero, []) :=
  invalid_index_only_prints chk0 fpack0 (fun _ => []) id (fun _ _ => []) 16 8
    WormmoduleStructM 9 memZero [] ⟨CType.float, 8⟩ 0 30 1 1
    none none none (some 5) none none none none (by omega) (by decide)

/-- C8 counterexample: at index 9 with max_sensor_num 8 the claim demands a
typed InvalidIndex failure that propagates, but read_worm_angle returns
successfully with the decoded field of the out-of-range record, and
send_worm_calib_data returns successfully with None. -/
theorem invalid_index_swallowed :
    read_worm_angle chk0 8 WormmoduleStructM (some []) 9 memZero =
      .ok (.raw [0, 0, 0, 0], []) ∧
    send_worm_calib_data chk0 fpack0 8 WormmoduleStructM 9
        none none none (some 5) none none none none memZero = .ok (none, memZero, []) ∧
    ∀ e : PyError,
      ¬read_worm_angle chk0 8 WormmoduleStructM (some []) 9 memZero = .error e := by
  refine ⟨rfl, rfl, fun e h => ?_⟩
  rw [show read_worm_angle chk0 8 WormmoduleStructM (some []) 9 memZero =
        .ok (.raw [0, 0, 0, 0], []) from rfl] at h
  exact Except.noConfusion h

theorem serial_read_more_sound :
    ∀ (chunks : List (List Nat)) (acc r : List Nat),
      ¬acc = [] → serial_read_more acc chunks = some r →
      ∃ k, k ≤ chunks.length ∧
        (acc ++ (chunks.take k).flatten).head? =
          some (acc ++ (chunks.take k).flatten).length ∧
        r = ((acc ++ (chunks.take k).flatten).drop 1).dropLast ∧
        ∀ j, j < k →
          ¬(acc ++ (chunks.take j).flatten).head? =
            some (acc ++ (chunks.take j).flatten).length := by
  intro chunks
  induction chunks with
  | nil =>
    intro acc r hne h
    simp only [serial_read_more] at h
    by_cases hc : 0 < acc.length ∧ acc.head? ≠ some acc.length
    · rw [if_pos hc] at h
      exact absurd h (by simp)
    · rw [if_neg hc] at h
      push_neg at hc
      have hlen : 0 < acc.length := List.length_pos.mpr hne
      refine ⟨0, by omega, by simpa using hc hlen, by simpa using (Option.some.inj h).symm,
        fun j hj => absurd hj (Nat.not_lt_zero j)⟩
  | cons c rest ih =>
    intro acc r hne h
    simp only [serial_read_more] at h
    by_cases hc : 0 < acc.length ∧ acc.head? ≠ some acc.length
    · rw [if_pos hc] at h
      have hne2 : ¬(acc ++ c) = [] := by simp [hne]
      obtain ⟨k, hk, hhead, hr, hmin⟩ := ih (acc ++ c) r hne2 h
      refine ⟨k + 1, by simpa using Nat.succ_le_succ hk, ?_, ?_, ?_⟩
      · simpa [List.take_succ_cons, List.flatten_cons, List.append_assoc] using hhead
      · simpa [List.take_succ_cons, List.flatten_cons, List.append_assoc] using hr
      · intro j hj
        cases j with
        | zero => simpa using hc.2
        | succ j2 =>
          have := hmin j2 (by omega)
          simpa [List.take_succ_cons, List.flatten_cons, List.append_assoc] using this
    · rw [if_neg hc] at h
      push_neg at hc
      have hlen : 0 < acc.length := List.length_pos.mpr hne
      refine ⟨0, by omega, by simpa using hc hlen, by simpa using (Option.some.inj h).symm,
        fun j hj => absurd hj (Nat.not_lt_zero j)⟩

theorem serial_read_chunks_sound :
    ∀ (chunks : List (List Nat)) (r : List Nat),
      serial_read_chunks chunks = some r →
      ∃ k, k ≤ chunks.length ∧
        ¬(chunks.take k).flatten = [] ∧
        (chunks.take k).flatten.head? = some (chunks.take k).flatten.length ∧
        r = ((chunks.take k).flatten.drop 1).dropLast ∧
        ∀ j, j < k →
          ¬(chunks.take j).flatten.head? = some (chunks.take j).flatten.length := by
  intro chunks
  induction chunks with
  | nil =>
    intro r h
    exact absurd h (by simp [serial_read_chunks])
  | cons c rest ih =>
    intro r h
    simp only [serial_read_chunks] at h
    by_cases hcz : c.length = 0
    · rw [if_pos hcz] at h
      have hc : c = [] := List.length_eq_zero.mp hcz
      obtain ⟨k, hk, hkne, hhead, hr, hmin⟩ := ih r h
      refine ⟨k + 1, by simpa using Nat.succ_le_succ hk, ?_, ?_, ?_, ?_⟩
      · simpa [List.take_succ_cons, List.flatten_cons, hc] using hkne
      · simpa [List.take_succ_cons, List.flatten_cons, hc] using hhead
      · simpa [List.take_succ_cons, List.flatten_cons, hc] using hr
      · intro j hj
        cases j with
        | zero => simp
        | succ j2 =>
          have := hmin j2 (by omega)
          simpa [List.take_succ_cons, List.flatten_cons, hc] using this
    · rw [if_neg hcz] at h
      have hcne : ¬c = [] := fun hh => hcz (by simp [hh])
      obtain ⟨k, hk, hhead, hr, hmin⟩ := serial_read_more_sound rest c r hcne h
      refine ⟨k + 1, by simpa using Nat.succ_le_succ hk, ?_, ?_, ?_, ?_⟩
      · simp only [List.take_succ_cons, List.flatten_cons]
        intro hh
        exact hcne (List.append_eq_nil.mp hh).1
      · simpa [List.take_succ_cons, List.flatten_cons] using hhead
      · simpa [List.take_succ_cons, List.flatten_cons] using hr
      · intro j hj
        cases j with
        | zero => simp
        | succ j2 =>
          have := hmin j2 (by omega)
          simpa [List.take_succ_cons, List.flatten_cons] using this

theorem serial_read_more_skip_empty :
    ∀ (l1 l2 : List (List Nat)) (acc : List Nat),
      serial_read_more acc (l1 ++ [] :: l2) = serial_read_more acc (l1 ++ l2) := by
  intro l1
  induction l1 with
  | nil =>
    intro l2 acc
    simp only [List.nil_append, serial_read_more]
    by_cases hc : 0 < acc.length ∧ acc.head? ≠ some acc.length
    · rw [if_pos hc, List.append_nil]
    · rw [if_neg hc]
      cases l2 with
      | nil => simp only [serial_read_more]; rw [if_neg hc]
      | cons d l3 => simp only [serial_read_more]; rw [if_neg hc]
  | cons d l1x ih =>
    intro l2 acc
    simp only [List.cons_append, serial_read_more]
    by_cases hc : 0 < acc.length ∧ acc.head? ≠ some acc.length
    · rw [if_pos hc, if_pos hc]
      exact ih l2 (acc ++ d)
    · rw [if_neg hc, if_neg hc]

theorem serial_read_chunks_skip_empty :
    ∀ (l1 l2 : List (List Nat)),
      serial_read_chunks (l1 ++ [] :: l2) = serial_read_chunks (l1 ++ l2) := by
  intro l1
  induction l1 with
  | nil =>
    intro l2
    simp [List.nil_append, serial_read_chunks]
  | cons c l1x ih =>
    intro l2
    simp only [List.cons_append, serial_read_chunks]
    by_cases hcz : c.length = 0
    · rw [if_pos hcz, if_pos hcz]
      exact ih l2
    · rw [if_neg hcz, if_neg hcz]
      exact serial_read_more_skip_empty l1x l2 c

/-- C3 (confirmed): serial_read accumulates the byte strings delivered by
successive reads; a read attempt that yields zero bytes never causes a
return (inserting an empty read anywhere in the delivery leaves the result
unchanged); the loop returns exactly at the first prefix of the delivery
whose accumulated first byte equals the accumulated byte count (every
strictly earlier accumulation fails that check, the empty accumulation
included); and the returned value is that accumulated frame with its
leading length byte and trailing checksum byte removed. -/
theorem serial_read_frame_reassembly (chunks : List (List Nat)) (r : List Nat)
    (l1 l2 : List (List Nat)) :
    (serial_read_chunks chunks = some r →
      ∃ k, k ≤ chunks.length ∧
        ¬(chunks.take k).flatten = [] ∧
        (chunks.take k).flatten.head? = some (chunks.take k).flatten.length ∧
        r = ((chunks.take k).flatten.drop 1).dropLast ∧
        ∀ j, j < k →
          ¬(chunks.take j).flatten.head? = some (chunks.take j).flatten.length) ∧
    serial_read_chunks (l1 ++ [] :: l2) = serial_read_chunks (l1 ++ l2) :=
  ⟨serial_read_chunks_sound chunks r, serial_read_chunks_skip_empty l1 l2⟩

theorem serial_read_frame_reassembly_witness :
    serial_read_chunks [[3, 7, 9]] = some [7] ∧
    (∃ k, k ≤ ([[3, 7, 9]] : List (List Nat)).length ∧
      ¬(([[3, 7, 9]] : List (List Nat)).take k).flatten = [] ∧
      ((([[3, 7, 9]] : List (List Nat)).take k).flatten).head? =
        some ((([[3, 7, 9]] : List (List Nat)).take k).flatten).length ∧
      [7] = (((([[3, 7, 9]] : List (List Nat)).take k).flatten).drop 1).dropLast ∧
      ∀ j, j < k →
        ¬((([[3, 7, 9]] : List (List Nat)).take j).flatten).head? =
          some ((([[3, 7, 9]] : List (List Nat)).take j).flatten).length) :=
  ⟨rfl, (serial_read_frame_reassembly [[3, 7, 9]] [7] [] []).1 rfl⟩


theorem mem_store_outside (mem : Mem) (a : Nat) (d : List Nat) (x : Nat)
    (h : ¬(a ≤ x ∧ x < a + d.length)) : mem_store mem a d x = mem x :=
  if_neg h

theorem mem_store_single_ne (mem : Mem) (a c x : Nat) (h : ¬x = a) :
    mem_store mem a [c] x = mem x :=
  mem_store_outside mem a [c] x (by simp; omega)

theorem mem_store_single_eq (mem : Mem) (a c : Nat) :
    mem_store mem a [c] a = c := by
  simp [mem_store]

theorem search_wheel_sids_go_spec (chk : Chk) (fpack : Int → List Nat)
    (S : StructSchema) (offr offf : Nat)
    (hr : S.fields.lookup "rotation" = some ⟨CType.uint8, offr⟩)
    (hf : S.fields.lookup "feedback" = some ⟨CType.uint8, offf⟩)
    (hro : offr < S.size) (hfo : offf < S.size) (hne : ¬offr = offf) :
    ∀ (ids acc : List Nat) (mem : Mem),
      ids.Nodup →
      (∀ i ∈ ids, S.base + S.size * i + offf < 4294967296) →
      ∃ mem2 : Mem,
        search_wheel_sids_go chk fpack S ids acc mem =
          .ok (acc ++ ids.filter (fun i => decide (0 < mem (S.base + S.size * i + offr))),
               mem2) ∧
        (∀ i ∈ ids, 0 < mem (S.base + S.size * i + offf) →
          mem2 (S.base + S.size * i + offf) = 0) ∧
        (∀ a : Nat, (∀ i ∈ ids, ¬a = S.base + S.size * i + offf) → mem2 a = mem a) ∧
        (∀ i ∈ ids, ¬0 < mem (S.base + S.size * i + offf) →
          mem2 (S.base + S.size * i + offf) = mem (S.base + S.size * i + offf)) := by
  intro ids
  induction ids with
  | nil =>
    intro acc mem hnd haddr
    exact ⟨mem, by simp [search_wheel_sids_go], by simp, fun a _ => rfl, by simp⟩
  | cons idx rest ih =>
    intro acc mem hnd haddr
    have hndr : rest.Nodup := (List.nodup_cons.mp hnd).2
    have hnotin : idx ∉ rest := (List.nodup_cons.mp hnd).1
    have haddr0 : S.base + S.size * idx + offf < 4294967296 :=
      haddr idx (List.mem_cons_self idx rest)
    have haddrr : ∀ i ∈ rest, S.base + S.size * i + offf < 4294967296 :=
      fun i hi => haddr i (List.mem_cons_of_mem idx hi)
    have hrot := cstruct_field_byteflag chk S mem idx offr "rotation" hr hro
    have hfb := cstruct_field_byteflag chk S mem idx offf "feedback" hf hfo
    have haddr_eq : S.base + idx * S.size + offf = S.base + S.size * idx + offf := by ring
    have hdisj_rf : ∀ i j : Nat, ¬S.base + S.size * i + offr = S.base + S.size * j + offf := by
      intro i j hcontra
      have h2 : S.size * i + offr = S.size * j + offf := by omega
      exact hne (mul_add_inj S.size i j offr offf hro hfo h2).2
    have hdisj_ff : ∀ i j : Nat, S.base + S.size * i + offf = S.base + S.size * j + offf → i = j := by
      intro i j hcontra
      have h2 : S.size * i + offf = S.size * j + offf := by omega
      exact (mul_add_inj S.size i j offf offf hfo hfo h2).1
    by_cases hfpos : 0 < mem (S.base + S.size * idx + offf)
    · have hset : set_cstruct_slot fpack S idx "feedback" 0 mem =
          .ok (mem_store mem (S.base + S.size * idx + offf) [0],
               ⟨S.base + S.size * idx + offf, 1, [0]⟩) := by
        have hna : ¬4294967296 ≤ S.base + idx * S.size + offf := by omega
        simp [set_cstruct_slot, hf, memory_write, c_type_to_size, hna, haddr_eq]
        omega
      set memw : Mem := mem_store mem (S.base + S.size * idx + offf) [0] with hmemw
      obtain ⟨mem3, heq, hclear, hout, hkeep⟩ :=
        ih (if 0 < mem (S.base + S.size * idx + offr) then acc ++ [idx] else acc)
          memw hndr haddrr
      have hmw_r : ∀ i : Nat, memw (S.base + S.size * i + offr) = mem (S.base + S.size * i + offr) := by
        intro i
        exact mem_store_single_ne mem _ 0 _ (hdisj_rf i idx)
      have hmw_f : ∀ i : Nat, ¬i = idx → memw (S.base + S.size * i + offf) = mem (S.base + S.size * i + offf) := by
        intro i hi
        exact mem_store_single_ne mem _ 0 _ (fun hcon => hi (hdisj_ff i idx hcon))
      have hfilter : rest.filter (fun i => decide (0 < memw (S.base + S.size * i + offr))) =
          rest.filter (fun i => decide (0 < mem (S.base + S.size * i + offr))) := by
        apply List.filter_congr
        intro i _
        rw [hmw_r i]
      refine ⟨mem3, ?_, ?_, ?_, ?_⟩
      · simp only [search_wheel_sids_go, hrot, hfb, pyval_gt_zero, hset, Except.instMonad,
          Except.bind, Except.ok.injEq, Int.natCast_pos, decide_eq_true_eq]
        rw [if_pos hfpos]
        rw [heq, hfilter]
        by_cases hrpos : 0 < mem (S.base + S.size * idx + offr)
        · simp [hrpos, List.filter_cons, List.append_assoc]
        · simp [hrpos, List.filter_cons]
      · intro i hi hipos
        rcases List.mem_cons.mp hi with hieq | hirest
        · subst hieq
          have h1 : mem3 (S.base + S.size * i + offf) = memw (S.base + S.size * i + offf) := by
            apply hout
            intro j hj hcon
            exact hnotin (by rw [hdisj_ff i j hcon]; exact hj)
          rw [h1, hmemw, mem_store_single_eq]
        · by_cases hieq : i = idx
          · subst hieq
            have h1 : mem3 (S.base + S.size * i + offf) = memw (S.base + S.size * i + offf) := by
              apply hout
              intro j hj hcon
              exact hnotin (by rw [hdisj_ff i j hcon]; exact hj)
            rw [h1, hmemw, mem_store_single_eq]
          · have h2 : 0 < memw (S.base + S.size * i + offf) := by
              rw [hmw_f i hieq]
              exact hipos
            exact hclear i hirest h2
      · intro a ha
        have h1 : mem3 a = memw a := by
          apply hout
          intro i hi
          exact ha i (List.mem_cons_of_mem idx hi)
        rw [h1, hmemw]
        exact mem_store_single_ne mem _ 0 _ (ha idx (List.mem_cons_self idx rest))
      · intro i hi hinot
        rcases List.mem_cons.mp hi with hieq | hirest
        · subst hieq
          exact absurd hfpos hinot
        · by_cases hieq : i = idx
          · subst hieq
            exact absurd hfpos hinot
          · have h2 : ¬0 < memw (S.base + S.size * i + offf) := by
              rw [hmw_f i hieq]
              exact hinot
            have := hkeep i hirest h2
            rwa [hmw_f i hieq] at this
    · obtain ⟨mem3, heq, hclear, hout, hkeep⟩ :=
        ih (if 0 < mem (S.base + S.size * idx + offr) then acc ++ [idx] else acc)
          mem hndr haddrr
      refine ⟨mem3, ?_, ?_, ?_, ?_⟩
      · simp only [search_wheel_sids_go, hrot, hfb, pyval_gt_zero, Except.instMonad,
          Except.bind, Int.natCast_pos, decide_eq_true_eq]
        rw [if_neg hfpos]
        rw [heq]
        by_cases hrpos : 0 < mem (S.base + S.size * idx + offr)
        · simp [hrpos, List.filter_cons, List.append_assoc]
        · simp [hrpos, List.filter_cons]
      · intro i hi hipos
        rcases List.mem_cons.mp hi with hieq | hirest
        · subst hieq
          exact absurd hipos hfpos
        · exact hclear i hirest hipos
      · intro a ha
        apply hout
        intro i hi
        exact ha i (List.mem_cons_of_mem idx hi)
      · intro i hi hinot
        rcases List.mem_cons.mp hi with hieq | hirest
        · subst hieq
          have h1 : mem3 (S.base + S.size * i + offf) = mem (S.base + S.size * i + offf) := by
            apply hout
            intro j hj hcon
            exact hnotin (by rw [hdisj_ff i j hcon]; exact hj)
          exact h1
        · exact hkeep i hirest hinot

/-- C7 (amended): among the previously discovered servos exactly those with
a nonzero rotation flag are collected as wheel servos; a nonzero feedback
flag is cleared as a side effect of the scan on every scanned servo,
wheel or not (the feedback check of the source is not nested under the
rotation check); no other byte of any servo record is modified, and a zero
feedback flag is left as it is. -/
theorem search_wheel_sids_spec (chk : Chk) (fpack : Int → List Nat)
    (S : StructSchema) (ids : List Nat) (mem : Mem) (offr offf : Nat)
    (hr : S.fields.lookup "rotation" = some ⟨CType.uint8, offr⟩)
    (hf : S.fields.lookup "feedback" = some ⟨CType.uint8, offf⟩)
    (hro : offr < S.size) (hfo : offf < S.size) (hne : ¬offr = offf)
    (hnd : ids.Nodup)
    (haddr : ∀ i ∈ ids, S.base + S.size * i + offf < 4294967296) :
    ∃ mem2 : Mem,
      search_wheel_sids chk fpack S ids mem =
        .ok (ids.filter (fun i => decide (0 < mem (S.base + S.size * i + offr))),
             (ids.filter (fun i => decide (0 < mem (S.base + S.size * i + offr)))).mergeSort,
             mem2) ∧
      (∀ i ∈ ids, 0 < mem (S.base + S.size * i + offf) →
        mem2 (S.base + S.size * i + offf) = 0) ∧
      (∀ a : Nat, (∀ i ∈ ids, ¬a = S.base + S.size * i + offf) → mem2 a = mem a) ∧
      (∀ i ∈ ids, ¬0 < mem (S.base + S.size * i + offf) →
        mem2 (S.base + S.size * i + offf) = mem (S.base + S.size * i + offf)) := by
  obtain ⟨mem2, heq, h1, h2, h3⟩ :=
    search_wheel_sids_go_spec chk fpack S offr offf hr hf hro hfo hne ids [] mem hnd haddr
  exact ⟨mem2, by simp [search_wheel_sids, heq, Except.map], h1, h2, h3⟩

theorem search_wheel_sids_spec_witness :
    ∃ mem2 : Mem,
      search_wheel_sids chk0 fpack0 ServoStructM [0, 2]
          (fun a => if a = 536870924 then 3 else 0) =
        .ok (([0, 2].filter fun i =>
                decide (0 < (fun a => if a = 536870924 then 3 else 0)
                  (ServoStructM.base + ServoStructM.size * i + 12))),
             (([0, 2].filter fun i =>
                decide (0 < (fun a => if a = 536870924 then 3 else 0)
                  (ServoStructM.base + ServoStructM.size * i + 12))).mergeSort),
             mem2) ∧
      (∀ i ∈ [0, 2], 0 < (fun a => if a = 536870924 then 3 else 0)
          (ServoStructM.base + ServoStructM.size * i + 13) →
        mem2 (ServoStructM.base + ServoStructM.size * i + 13) = 0) ∧
      (∀ a : Nat, (∀ i ∈ [0, 2], ¬a = ServoStructM.base + ServoStructM.size * i + 13) →
        mem2 a = (fun a => if a = 536870924 then 3 else 0) a) ∧
      (∀ i ∈ [0, 2], ¬0 < (fun a => if a = 536870924 then 3 else 0)
          (ServoStructM.base + ServoStructM.size * i + 13) →
        mem2 (ServoStructM.base + ServoStructM.size * i + 13) =
          (fun a => if a = 536870924 then 3 else 0)
            (ServoStructM.base + ServoStructM.size * i + 13)) :=
  search_wheel_sids_spec chk0 fpack0 ServoStructM [0, 2]
    (fun a => if a = 536870924 then 3 else 0) 12 13
    (by decide) (by decide) (by decide) (by decide) (by decide) (by decide)
    (by decide)

/-- C7 counterexample: a discovered servo whose rotation flag is zero (not a
wheel servo) but whose feedback flag is 1 is not collected, yet its feedback
byte is cleared by the scan, so the scan does modify a field of a non-wheel
servo record. -/
theorem search_wheel_clears_non_wheel_feedback :
    (search_wheel_sids chk0 fpack0 ServoStructM [0]
        (fun a => if a = 536870925 then 1 else 0)).map
      (fun p => (p.1, p.2.2 (ServoStructM.base + 13),
        (fun a : Nat => if a = 536870925 then 1 else 0) (ServoStructM.base + 13))) =
      .ok ([], 0, 1) := by
  rfl
